import Mathlib

/-!
Shallow embedding of the customer-service-plugin data layer — the dataset
flattening and export logic of `src/dataloader/Dataloader.py`, the recall
ledger of `src/dataloader/RecallData.py`, and the spreadsheet re-projection of
`src/scripts/sqlite2xlsx.py` — together with theorems settling the
specification claims about them.
-/

namespace Dataloader

/-- A row of the knowledge spreadsheet loaded by `Dataloader.__init__`: the
first column is the canonical question (主问题), the second the answer
(标准答案/答案), and the remaining variable-length columns are paraphrase cells
(问法 1, 问法 2, ...), where `none` models an empty cell (pandas `NaN`, the
case detected by `pd.isnull`). -/
structure KBRow where
  ques  : String
  ans   : String
  forms : List (Option String)
  deriving DecidableEq

/-- The loaded `pd.DataFrame`, as the list of its rows.  In `df.itertuples()`,
`row[0]` is the pandas index — for a freshly loaded table the 0-based row
position — `row[1]` the canonical question, `row[2]` the answer and `row[3:]`
the paraphrase cells; the row position is recovered here with `List.enum`. -/
abbrev Table := List KBRow

/-- `Dataloader.flatten_data`: for each row append one triple
`(ques_form, row[1], row[0])` per paraphrase cell that is not null (null cells
are skipped via `pd.isnull`), followed by the self-sample
`(row[1], row[1], row[0])` for the canonical question itself. -/
def flatten_data (df : Table) : List (String × String × Nat) :=
  (df.enum.map (fun p =>
    (p.2.forms.filterMap (fun c => c.map (fun f => (f, p.2.ques, p.1))))
      ++ [(p.2.ques, p.2.ques, p.1)])).flatten

/-- `Dataloader.__len__`: `len(self._data_pool)`. -/
def size (df : Table) : Nat := (flatten_data df).length

/-- `self._answer_list = df['答案']`: the answer column of the table. -/
def answer_list (df : Table) : List String := df.map (fun r => r.ans)

/-- `Dataloader.get_answer`: `self._answer_list[main_ques_idx]`.  An index with
no row raises a lookup error in pandas, modelled as `none`. -/
def get_answer (df : Table) (main_ques_idx : Nat) : Option String :=
  (answer_list df)[main_ques_idx]?

/-- One run of Python `random.sample`: repeatedly pick the element at position
`rand k % remaining.length` of the still-remaining pool and remove it, so each
returned element is taken from a distinct position of the original pool
(drawing without replacement).  The stream `rand` stands for the random number
generator, whose distribution is irrelevant to the claims. -/
def drawWithout : List α → Nat → (Nat → Nat) → List α
  | _, 0, _ => []
  | pool, n + 1, rand =>
    if h : pool.length = 0 then []
    else
      pool.get ⟨rand 0 % pool.length, Nat.mod_lt _ (Nat.pos_of_ne_zero h)⟩ ::
        drawWithout (pool.eraseIdx (rand 0 % pool.length)) n (fun k => rand (k + 1))

/-- `Dataloader.sample`: `random.sample(self._data_pool, count)`.
`random.sample` raises `ValueError` when `count` exceeds the population size,
modelled as `none`. -/
def sample (df : Table) (count : Nat) (rand : Nat → Nat) :
    Option (List (String × String × Nat)) :=
  if count ≤ (flatten_data df).length then
    some (drawWithout (flatten_data df) count rand)
  else none

/-- Rows of the `main_ques` table written by `Dataloader.to_sqlite`: one
`INSERT INTO main_ques (id, ques, ans) VALUES (row[0], row[1], row[2])` per
source row, in table order. -/
def main_ques_table (df : Table) : List (Nat × String × String) :=
  df.enum.map (fun p => (p.1, p.2.ques, p.2.ans))

/-- Rows of the `sub_ques` table written by `Dataloader.to_sqlite`: per source
row one `(ques, main_ques_id)` row per paraphrase cell that is not null,
followed by one for the canonical question itself. -/
def sub_ques_table (df : Table) : List (String × Nat) :=
  (df.enum.map (fun p =>
    (p.2.forms.filterMap (fun c => c.map (fun f => (f, p.1))))
      ++ [(p.2.ques, p.1)])).flatten

/-- Contents of the two-table database created by `Dataloader.to_sqlite`. -/
structure KnowledgeStore where
  main_ques : List (Nat × String × String)
  sub_ques  : List (String × Nat)
  deriving DecidableEq

/-- The store that `Dataloader.to_sqlite` writes for a loaded table. -/
def exportStore (df : Table) : KnowledgeStore :=
  { main_ques := main_ques_table df, sub_ques := sub_ques_table df }

/-- `Dataloader.to_sqlite`: the `os.path.exists(path)` guard followed by the
CREATE TABLE / INSERT loops.  The filesystem is modelled as the map from paths
to the knowledge stores they hold; the result pairs the call's outcome — the
raised `AssertionError("... already exists!")` modelled as `Except.error
"AlreadyExists"` — with the filesystem after the call. -/
def to_sqlite (fs : String → Option KnowledgeStore) (df : Table) (path : String) :
    Except String Unit × (String → Option KnowledgeStore) :=
  if (fs path).isSome then
    (Except.error "AlreadyExists", fs)
  else
    (Except.ok (), fun p => if p = path then some (exportStore df) else fs p)

end Dataloader

namespace RecallData

/-- Contents of the recall-ledger database maintained by `RecallData`:
the `recall` table (id, ques), the `labeled` table (ques, ans) and the
AUTOINCREMENT sequence counter of `recall` — the next inserted recall row
receives id `seq + 1`, so ids are unique and monotone. -/
structure DBState where
  recalls : List (Nat × String)
  labeled : List (String × String)
  seq     : Nat
  deriving DecidableEq

/-- A fresh ledger database, as left by `RecallData.__init__` (two empty
tables; the first recalled row will get id 1). -/
def emptyDB : DBState := { recalls := [], labeled := [], seq := 0 }

/-- Table effect of `RecallData.recall`:
`INSERT INTO recall (ques) VALUES (?)` with an AUTOINCREMENT id. -/
def recallIns (ques : String) (s : DBState) : DBState :=
  { recalls := s.recalls ++ [(s.seq + 1, ques)], labeled := s.labeled, seq := s.seq + 1 }

/-- `RecallData._label_id`: `SELECT ques FROM recall WHERE id = ? LIMIT 1`;
when no row matches, return `False` having changed nothing; otherwise
`DELETE FROM recall WHERE id = ?`, `INSERT INTO labeled (ques, ans)` the
selected text with the given answer, and return `True`. -/
def _label_id (id_ : Nat) (ans : String) (s : DBState) : Bool × DBState :=
  match s.recalls.find? (fun p => p.1 == id_) with
  | none => (false, s)
  | some p =>
      (true,
        { recalls := s.recalls.filter (fun r => r.1 != id_)
        , labeled := s.labeled ++ [(p.2, ans)]
        , seq := s.seq })

/-- `RecallData._label_ques`: `INSERT INTO labeled (ques, ans) VALUES (?,?)`. -/
def _label_ques (ques ans : String) (s : DBState) : DBState :=
  { recalls := s.recalls, labeled := s.labeled ++ [(ques, ans)], seq := s.seq }

/-- `RecallData.label`: dispatch on the runtime type of `id_ques`
(`int` goes to `_label_id`, `str` to `_label_ques`, which always reports
success). -/
def label (id_ques : Nat ⊕ String) (ans : String) (s : DBState) : Bool × DBState :=
  match id_ques with
  | Sum.inl id_ => _label_id id_ ans s
  | Sum.inr ques => (true, _label_ques ques ans s)

/-- Runtime state of a `RecallData` object: the durable database file and the
view held by the persistent connection `self.conn` when one is open. -/
structure SessionState where
  file : DBState
  conn : Option DBState
  deriving DecidableEq

/-- One method body of the shape
`with self.conn or sqlite3.connect(self.dbfile) as conn: ...`: with a
persistent connection the body runs on that connection's view, otherwise on a
fresh connection seeing the file.  In both cases Python's sqlite3 connection
context manager commits the open transaction when the `with` block exits
without an exception, so the body's writes reach the file at once. -/
def withConn (body : DBState → α × DBState) (st : SessionState) : α × SessionState :=
  match st.conn with
  | some s =>
      let r := body s
      (r.1, { file := r.2, conn := some r.2 })
  | none =>
      let r := body st.file
      (r.1, { file := r.2, conn := none })

/-- `RecallData.__enter__`: open the persistent connection
`self.conn = sqlite3.connect(self.dbfile)`. -/
def enterScope (st : SessionState) : SessionState :=
  { file := st.file, conn := some st.file }

/-- `RecallData.__exit__`: on a clean exit (`exc_type is None`) commit the
persistent connection; on an exception skip the commit, so whatever is still
uncommitted on the connection is discarded when it is closed; in both cases
close the connection and set `self.conn = None`. -/
def exitScope (ok : Bool) (st : SessionState) : SessionState :=
  match st.conn with
  | some s => { file := if ok then s else st.file, conn := none }
  | none => st

/-- The method `RecallData.recall` acting on the runtime state. -/
def recallM (ques : String) (st : SessionState) : SessionState :=
  (withConn (fun s => ((), recallIns ques s)) st).2

/-- The method `RecallData.label` acting on the runtime state. -/
def labelM (id_ques : Nat ⊕ String) (ans : String) (st : SessionState) :
    Bool × SessionState :=
  withConn (label id_ques ans) st

end RecallData

namespace MergeExporter

/-- One spreadsheet cell as openpyxl sees it: `none` is an unwritten cell
(`cell.value is None`). -/
abbrev Cell := Option String

/-- A worksheet: the list of its rows (row `r` of the sheet, 1-indexed, is
entry `r - 1`), each row the list of its cells from column 1. -/
abbrev Sheet := List (List Cell)

/-- Writing a value into column `c` (1-indexed) of a row, extending the row
with empty cells when the coordinate lies beyond its current extent. -/
def setCellRow (row : List Cell) (c : Nat) (v : String) : List Cell :=
  (row ++ List.replicate (c - row.length) none).set (c - 1) (some v)

/-- `worksheet.cell(r, c, value=v)` (1-indexed coordinates), growing the sheet
as openpyxl does when the coordinate lies outside the current extent. -/
def setCell (ws : Sheet) (r c : Nat) (v : String) : Sheet :=
  let ws2 := ws ++ List.replicate (r - ws.length) ([] : List Cell)
  ws2.set (r - 1) (setCellRow (ws2.getD (r - 1) []) c v)

/-- `get_first_empty_cell(ws, row)`: scan the cells of the row from column 1
and return the 1-indexed position of the first cell whose value is `None`,
or one past the row's extent when every cell is filled. -/
def get_first_empty_cell (row : List Cell) : Nat :=
  match row.findIdx? (fun c => c.isNone) with
  | some i => i + 1
  | none => row.length + 1

/-- The 知识库 header row written before the export loops
(`worksheet.cell(1, k, ...)` for the three captions). -/
def initSheet : Sheet :=
  setCell (setCell (setCell [] 1 1 "主问题") 1 2 "标准答案") 1 3 "问法"

/-- First export loop of `sqlite2xlsx.py`: for each `main_ques` row
`(id_, ques, ans)` write `ques` at `(id_ + 2, 1)` and `ans` at `(id_ + 2, 2)`. -/
def writeMain (ws : Sheet) (mq : List (Nat × String × String)) : Sheet :=
  mq.foldl (fun w p => setCell (setCell w (p.1 + 2) 1 p.2.1) (p.1 + 2) 2 p.2.2) ws

/-- Second export loop of `sqlite2xlsx.py`: each `sub_ques` row
`(ques, main_ques_id)` goes to row `main_ques_id + 2`, into the first empty
column of that row. -/
def writeSub (ws : Sheet) (sq : List (String × Nat)) : Sheet :=
  sq.foldl (fun w p =>
    setCell w (p.2 + 2) (get_first_empty_cell (w.getD (p.2 + 2 - 1) [])) p.1) ws

/-- The 知识库 sheet produced by `sqlite2xlsx.py` from a knowledge store. -/
def knowledgeSheet (kb : Dataloader.KnowledgeStore) : Sheet :=
  writeSub (writeMain initSheet kb.main_ques) kb.sub_ques

/-- The question forms that the `sub_ques` table assigns to canonical question
`j`, in table order. -/
def formsFor (j : Nat) (sq : List (String × Nat)) : List String :=
  (sq.filter (fun p => p.2 == j)).map Prod.fst

/-- Reloading the exported sheet as a `Dataloader` table (`pd.read_excel`):
row 1 is the header, data row `j` (0-based pandas index) is sheet row `j + 2`;
its first cell is the canonical question, the second the answer, the rest the
paraphrase cells.  The defaults for an absent cell are never reached on sheets
produced by the exporter, where the first two cells of every data row are
written. -/
def reimportTable (ws : Sheet) : Dataloader.Table :=
  (List.range (ws.length - 1)).map (fun j =>
    { ques := ((ws.getD (j + 1) []).getD 0 none).getD ""
    , ans  := ((ws.getD (j + 1) []).getD 1 none).getD ""
    , forms := (ws.getD (j + 1) []).drop 2 })

end MergeExporter

/-- Example table: one row, canonical question with one paraphrase and one
empty trailing cell. -/
def dfEx : Dataloader.Table :=
  [{ ques := "How are you", ans := "I am fine", forms := [some "how r u", none] }]

/-- Example knowledge store: one canonical question with two paraphrases
(hence three `sub_ques` rows, the canonical text included). -/
def kbEx : Dataloader.KnowledgeStore :=
  Dataloader.exportStore [{ ques := "q", ans := "a", forms := [some "f1", some "f2"] }]

/-- Example ledger database: two unresolved recall rows. -/
def dbEx : RecallData.DBState :=
  { recalls := [(1, "hi"), (2, "yo")], labeled := [], seq := 2 }

/-- Example filesystem already holding a knowledge store at "kb.db". -/
def fsEx : String → Option Dataloader.KnowledgeStore :=
  fun p => if p = "kb.db" then some kbEx else none

namespace Dataloader

theorem length_filterMap_map {β : Type} (forms : List (Option String))
    (g : String → β) :
    (forms.filterMap (fun c => c.map g)).length = (forms.filterMap id).length := by
  induction forms with
  | nil => rfl
  | cons c t ih => cases c <;> simp [List.filterMap_cons, ih]

theorem size_eq_aux :
    ∀ (k : Nat) (df : Table),
      (((df.enumFrom k).map (fun p =>
          (p.2.forms.filterMap (fun c => c.map (fun f => (f, p.2.ques, p.1))))
            ++ [(p.2.ques, p.2.ques, p.1)])).flatten).length
        = (df.map (fun r => (r.forms.filterMap id).length)).sum + df.length := by
  intro k df
  induction df generalizing k with
  | nil => rfl
  | cons r t ih =>
    simp only [List.enumFrom_cons, List.map_cons, List.flatten_cons,
      List.length_append, List.length_cons, List.length_nil, List.sum_cons,
      length_filterMap_map, ih (k + 1)]
    omega

theorem drawWithout_length {α : Type} (n : Nat) :
    ∀ (pool : List α) (rand : Nat → Nat), n ≤ pool.length →
      (drawWithout pool n rand).length = n := by
  induction n with
  | zero => intro pool rand _; rfl
  | succ n ih =>
    intro pool rand h
    have hp : ¬ pool.length = 0 := by omega
    have hi : rand 0 % pool.length < pool.length :=
      Nat.mod_lt _ (Nat.pos_of_ne_zero hp)
    have hlen : (pool.eraseIdx (rand 0 % pool.length)).length + 1 = pool.length :=
      List.length_eraseIdx_add_one hi
    simp only [drawWithout, hp, dite_false, List.length_cons]
    rw [ih _ _ (by omega)]

theorem perm_get_cons_eraseIdx {α : Type} :
    ∀ (l : List α) (i : Nat) (h : i < l.length),
      List.Perm (l.get ⟨i, h⟩ :: l.eraseIdx i) l
  | [], i, h => absurd h (Nat.not_lt_zero i)
  | a :: t, 0, _ => List.Perm.refl _
  | a :: t, i + 1, h => by
    have ht : i < t.length := Nat.lt_of_succ_lt_succ (by simpa using h)
    have step : List.Perm (t.get ⟨i, ht⟩ :: a :: t.eraseIdx i)
        (a :: (t.get ⟨i, ht⟩ :: t.eraseIdx i)) := List.Perm.swap _ _ _
    have rest : List.Perm (a :: (t.get ⟨i, ht⟩ :: t.eraseIdx i)) (a :: t) :=
      List.Perm.cons a (perm_get_cons_eraseIdx t i ht)
    exact step.trans rest

theorem drawWithout_subperm {α : Type} (n : Nat) :
    ∀ (pool : List α) (rand : Nat → Nat),
      (drawWithout pool n rand).Subperm pool := by
  induction n with
  | zero => intro pool rand; simp [drawWithout]
  | succ n ih =>
    intro pool rand
    by_cases hp : pool.length = 0
    · simp [drawWithout, hp]
    · have hi : rand 0 % pool.length < pool.length :=
        Nat.mod_lt _ (Nat.pos_of_ne_zero hp)
      simp only [drawWithout, hp, dite_false]
      have h1 := ih (pool.eraseIdx (rand 0 % pool.length)) (fun k => rand (k + 1))
      have h2 := (List.subperm_cons (pool.get ⟨rand 0 % pool.length, hi⟩)).mpr h1
      exact h2.trans (perm_get_cons_eraseIdx pool _ hi).subperm

end Dataloader

open Dataloader in
/-- C3: the flattened pool has, per row, one sample per non-empty paraphrase
cell plus exactly one self-sample, so `size` equals the number of non-empty
paraphrase cells plus the row count, and each row's canonical text appears
among that row's samples. -/
theorem C3_flatten_pool (df : Table) :
    size df = (df.map (fun r => (r.forms.filterMap id).length)).sum + df.length
    ∧ ∀ i (h : i < df.length),
        ((df.get ⟨i, h⟩).ques, (df.get ⟨i, h⟩).ques, i) ∈ flatten_data df := by
  constructor
  · exact size_eq_aux 0 df
  · intro i h
    have hme : (i, df.get ⟨i, h⟩) ∈ df.enum := by
      have hlen : i < df.enum.length := by simpa [List.enum_length] using h
      have := List.getElem_enum df i hlen
      have hmem := List.getElem_mem hlen
      rw [this] at hmem
      simpa [List.get_eq_getElem] using hmem
    refine List.mem_flatten.mpr ⟨_, List.mem_map_of_mem _ hme, ?_⟩
    exact List.mem_append_right _ (by simp)

/-- Witness for C3 at the example table and row 0. -/
theorem C3_flatten_pool_witness :
    Dataloader.size dfEx
        = (dfEx.map (fun r => (r.forms.filterMap id).length)).sum + dfEx.length
    ∧ ((dfEx.get ⟨0, by decide⟩).ques, (dfEx.get ⟨0, by decide⟩).ques, 0)
        ∈ Dataloader.flatten_data dfEx :=
  ⟨(C3_flatten_pool dfEx).1, (C3_flatten_pool dfEx).2 0 (by decide)⟩

open Dataloader in
/-- C4: when the requested count does not exceed the pool size, `sample`
returns exactly that many samples drawn without replacement from the pool
(their multiset is contained in the pool's); when it does exceed it, `sample`
fails instead of returning a result. -/
theorem C4_sample_without_replacement (df : Table) (count : Nat)
    (rand : Nat → Nat) :
    (count ≤ size df →
        ∃ l, sample df count rand = some l ∧ l.length = count
          ∧ l.Subperm (flatten_data df))
    ∧ (size df < count → sample df count rand = none) := by
  constructor
  · intro h
    refine ⟨drawWithout (flatten_data df) count rand, ?_, ?_, ?_⟩
    · simp only [sample, if_pos (show count ≤ (flatten_data df).length from h)]
    · exact drawWithout_length count _ rand h
    · exact drawWithout_subperm count _ rand
  · intro h
    have h2 : ¬ count ≤ (flatten_data df).length := by
      simp only [size] at h; omega
    simp only [sample, if_neg h2]

/-- Witness for C4 at the example table, drawing 1 of 2 samples and then
asking for 3. -/
theorem C4_sample_witness :
    (1 ≤ Dataloader.size dfEx
      ∧ ∃ l, Dataloader.sample dfEx 1 (fun _ => 0) = some l ∧ l.length = 1
          ∧ l.Subperm (Dataloader.flatten_data dfEx))
    ∧ (Dataloader.size dfEx < 3
      ∧ Dataloader.sample dfEx 3 (fun _ => 0) = none) :=
  ⟨⟨by decide, (C4_sample_without_replacement dfEx 1 (fun _ => 0)).1 (by decide)⟩,
   ⟨by decide, (C4_sample_without_replacement dfEx 3 (fun _ => 0)).2 (by decide)⟩⟩

open Dataloader in
/-- C5: `get_answer` round-trips the answer loaded for every valid row index
and fails (no value) for every index out of range. -/
theorem C5_get_answer_round_trip (df : Table) (i : Nat) :
    (∀ h : i < df.length, get_answer df i = some (df.get ⟨i, h⟩).ans)
    ∧ (df.length ≤ i → get_answer df i = none) := by
  constructor
  · intro h
    show (df.map (fun r => r.ans))[i]? = some (df.get ⟨i, h⟩).ans
    rw [List.getElem?_eq_getElem (by simpa using h)]
    simp [List.get_eq_getElem]
  · intro h
    show (df.map (fun r => r.ans))[i]? = none
    exact List.getElem?_eq_none (by simpa using h)

/-- Witness for C5 at the example table: index 0 is answered, index 9 fails. -/
theorem C5_get_answer_witness :
    Dataloader.get_answer dfEx 0 = some (dfEx.get ⟨0, by decide⟩).ans
    ∧ Dataloader.get_answer dfEx 9 = none :=
  ⟨(C5_get_answer_round_trip dfEx 0).1 (by decide),
   (C5_get_answer_round_trip dfEx 9).2 (by decide)⟩

namespace RecallData

theorem perm_cons_filter_of_nodup_ids :
    ∀ (l : List (Nat × String)), (l.map Prod.fst).Nodup →
      ∀ (id_ : Nat) (q : String), (id_, q) ∈ l →
        List.Perm l ((id_, q) :: l.filter (fun r => r.1 != id_)) := by
  intro l
  induction l with
  | nil => intro _ id_ q hq; cases hq
  | cons a t ih =>
    intro hnd id_ q hq
    rw [List.map_cons] at hnd
    have hnd2 := List.nodup_cons.mp hnd
    rcases List.mem_cons.mp hq with heq | hmem
    · subst heq
      have hft : t.filter (fun r => r.1 != id_) = t := by
        apply List.filter_eq_self.mpr
        intro r hr
        have : r.1 ≠ id_ := by
          intro hcon
          have hmm : r.1 ∈ t.map Prod.fst := List.mem_map_of_mem Prod.fst hr
          rw [hcon] at hmm
          exact hnd2.1 hmm
        simpa using this
      simp [List.filter_cons, hft]
    · have hane : a.1 ≠ id_ := by
        intro hcon
        have : id_ ∈ t.map Prod.fst := by
          simpa using List.mem_map_of_mem Prod.fst hmem
        exact hnd2.1 (hcon ▸ this)
      have ihh := ih hnd2.2 id_ q hmem
      have step1 : List.Perm (a :: t)
          (a :: ((id_, q) :: t.filter (fun r => r.1 != id_))) :=
        List.Perm.cons a ihh
      have step2 : List.Perm (a :: ((id_, q) :: t.filter (fun r => r.1 != id_)))
          ((id_, q) :: a :: t.filter (fun r => r.1 != id_)) :=
        List.Perm.swap (id_, q) a _
      have hfc : (a :: t).filter (fun r => r.1 != id_)
          = a :: t.filter (fun r => r.1 != id_) := by
        simp [List.filter_cons, hane]
      rw [hfc]
      exact step1.trans step2

end RecallData

open RecallData in
/-- C1: labelling by id on a ledger whose recall ids are distinct (they are
assigned by an AUTOINCREMENT primary key): when no recall row carries the id,
the call returns the failure flag and leaves both tables unchanged; when one
does, exactly that row is removed from `recall` and exactly one labeled row
pairing its text with the answer is appended; promoting the same id again then
fails and changes nothing, so no duplicate labeled row appears. -/
theorem C1_label_by_id (s : DBState) (id_ : Nat) (ans : String)
    (hids : (s.recalls.map Prod.fst).Nodup) :
    ((∀ p ∈ s.recalls, p.1 ≠ id_) → label (Sum.inl id_) ans s = (false, s))
    ∧ (∀ q, (id_, q) ∈ s.recalls →
        label (Sum.inl id_) ans s
          = (true, { recalls := s.recalls.filter (fun r => r.1 != id_)
                   , labeled := s.labeled ++ [(q, ans)]
                   , seq := s.seq })
        ∧ List.Perm s.recalls
            ((id_, q) :: s.recalls.filter (fun r => r.1 != id_))
        ∧ label (Sum.inl id_) ans (label (Sum.inl id_) ans s).2
            = (false, (label (Sum.inl id_) ans s).2)) := by
  constructor
  · intro habs
    have hf : s.recalls.find? (fun p => p.1 == id_) = none :=
      List.find?_eq_none.mpr (fun x hx => by simpa using habs x hx)
    simp [label, _label_id, hf]
  · intro q hq
    have hsome : (s.recalls.find? (fun p => p.1 == id_)).isSome :=
      List.find?_isSome.mpr ⟨(id_, q), hq, by simp⟩
    obtain ⟨p, hfind⟩ := Option.isSome_iff_exists.mp hsome
    have hp1 : p.1 = id_ := by simpa using List.find?_some hfind
    have hpm : p ∈ s.recalls := List.mem_of_find?_eq_some hfind
    have hpq : p = (id_, q) :=
      List.inj_on_of_nodup_map hids hpm hq (by simp [hp1])
    subst hpq
    have hnone : (s.recalls.filter (fun r => r.1 != id_)).find?
        (fun p => p.1 == id_) = none := by
      apply List.find?_eq_none.mpr
      intro x hx
      have hxf := (List.mem_filter.mp hx).2
      simpa using hxf
    refine ⟨by simp [label, _label_id, hfind], ?_, ?_⟩
    · exact perm_cons_filter_of_nodup_ids s.recalls hids id_ q hq
    · simp [label, _label_id, hfind, hnone]

/-- Witness for C1 at the example ledger: id 7 is absent and fails with no
change; id 1 is present and is promoted. -/
theorem C1_label_by_id_witness :
    (dbEx.recalls.map Prod.fst).Nodup
    ∧ RecallData.label (Sum.inl 7) "x" dbEx = (false, dbEx)
    ∧ RecallData.label (Sum.inl 1) "lei" dbEx
        = (true, { recalls := dbEx.recalls.filter (fun r => r.1 != 1)
                 , labeled := dbEx.labeled ++ [("hi", "lei")]
                 , seq := dbEx.seq }) :=
  ⟨by decide,
   (C1_label_by_id dbEx 7 "x" (by decide)).1 (by decide),
   ((C1_label_by_id dbEx 1 "lei" (by decide)).2 "hi" (by decide)).1⟩

open RecallData in
/-- C2 (refuting evaluation): open a session on a fresh ledger, recall one
question inside the scope, then signal a failure so the scope exits on the
error path.  The claim requires that no write becomes durable before scope
exit and that a failed scope discards every write; but each method body's
`with conn` block commits when it exits, so the recall row is durable
immediately after the call and survives the failed scope. -/
theorem C2_scoped_write_survives_failed_scope :
    (recallM "what time is it"
        (enterScope { file := emptyDB, conn := none })).file.recalls
      = [(1, "what time is it")]
    ∧ (exitScope false
        (recallM "what time is it"
          (enterScope { file := emptyDB, conn := none }))).file
      = { recalls := [(1, "what time is it")], labeled := [], seq := 1 } :=
  ⟨rfl, rfl⟩

open RecallData in
/-- C9: labelling by raw text always reports success and appends exactly one
`(ques, ans)` row to the labeled table, bypassing the recall stage (the recall
table and the id sequence are untouched). -/
theorem C9_label_by_text (s : DBState) (q ans : String) :
    (label (Sum.inr q) ans s).1 = true
    ∧ (label (Sum.inr q) ans s).2.labeled = s.labeled ++ [(q, ans)]
    ∧ (label (Sum.inr q) ans s).2.recalls = s.recalls
    ∧ (label (Sum.inr q) ans s).2.seq = s.seq :=
  ⟨rfl, rfl, rfl, rfl⟩

open RecallData in
/-- C10: frame property: `recall` appends exactly one row to the recall table
and leaves the labeled table unchanged, and labelling raw text leaves the
recall table unchanged. -/
theorem C10_recall_label_frame (s : DBState) (q ans : String) :
    (recallIns q s).recalls = s.recalls ++ [(s.seq + 1, q)]
    ∧ (recallIns q s).labeled = s.labeled
    ∧ (_label_ques q ans s).recalls = s.recalls :=
  ⟨rfl, rfl, rfl⟩

open Dataloader in
/-- C6: exporting to a path that already holds a knowledge store fails with
the AlreadyExists condition and performs no write at all: the filesystem after
the call is the one before it, so the existing store is untouched. -/
theorem C6_to_sqlite_refuses_overwrite (fs : String → Option KnowledgeStore)
    (df : Table) (path : String) (h : (fs path).isSome) :
    (to_sqlite fs df path).1 = Except.error "AlreadyExists"
    ∧ (to_sqlite fs df path).2 = fs := by
  constructor <;> simp [to_sqlite, h]

/-- Witness for C6 at a filesystem already holding a store at "kb.db". -/
theorem C6_to_sqlite_witness :
    (fsEx "kb.db").isSome
    ∧ (Dataloader.to_sqlite fsEx [] "kb.db").1 = Except.error "AlreadyExists"
    ∧ (Dataloader.to_sqlite fsEx [] "kb.db").2 = fsEx :=
  ⟨by decide,
   (C6_to_sqlite_refuses_overwrite fsEx [] "kb.db" (by decide)).1,
   (C6_to_sqlite_refuses_overwrite fsEx [] "kb.db" (by decide)).2⟩

namespace MergeExporter

theorem getD_append_self {α : Type} (l : List α) (x d : α) :
    (l ++ [x]).getD l.length d = x := by
  simp [List.getD_eq_getElem?_getD, List.getElem?_append_right (Nat.le_refl l.length)]

theorem set_append_self {α : Type} (l : List α) (x y : α) :
    (l ++ [x]).set l.length y = l ++ [y] := by
  rw [List.set_append_right _ _ (Nat.le_refl l.length)]
  simp

theorem range_map_getD {α : Type} (L : List α) (d : α) :
    (List.range L.length).map (fun j => L.getD j d) = L := by
  apply List.ext_getElem
  · simp
  · intro i h1 h2
    simp [List.getD_eq_getElem?_getD, List.getElem?_eq_getElem h2]

theorem setCellRow_extend (row : List Cell) (v : String) :
    setCellRow row (row.length + 1) v = row ++ [some v] := by
  have h1 : row.length + 1 - row.length = 1 := by omega
  have h2 : row.length + 1 - 1 = row.length := by omega
  rw [setCellRow, h1, h2, List.replicate_succ, List.replicate_zero]
  exact set_append_self row none (some v)

theorem get_first_empty_cell_of_allSome (row : List Cell)
    (h : ∀ c ∈ row, c.isSome = true) :
    get_first_empty_cell row = row.length + 1 := by
  have hnone : row.findIdx? (fun c => c.isNone) = none := by
    rw [List.findIdx?_eq_none_iff]
    intro x hx
    cases x with
    | none => simpa using h none hx
    | some v => rfl
  simp [get_first_empty_cell, hnone]

theorem setCell_le (ws : Sheet) (r c : Nat) (v : String) (h : r ≤ ws.length) :
    setCell ws r c v = ws.set (r - 1) (setCellRow (ws.getD (r - 1) []) c v) := by
  simp [setCell, Nat.sub_eq_zero_of_le h]

theorem setCell_extend (ws : Sheet) (c : Nat) (v : String) :
    setCell ws (ws.length + 1) c v = ws ++ [setCellRow [] c v] := by
  have h1 : ws.length + 1 - ws.length = 1 := by omega
  have h2 : ws.length + 1 - 1 = ws.length := by omega
  simp only [setCell, h1, h2, List.replicate_succ, List.replicate_zero]
  rw [getD_append_self]
  exact set_append_self ws [] _

theorem writeMain_nil (ws : Sheet) : writeMain ws [] = ws := rfl

theorem writeMain_cons (ws : Sheet) (x : Nat × String × String)
    (xs : List (Nat × String × String)) :
    writeMain ws (x :: xs)
      = writeMain (setCell (setCell ws (x.1 + 2) 1 x.2.1) (x.1 + 2) 2 x.2.2) xs := rfl

theorem writeSub_nil (ws : Sheet) : writeSub ws [] = ws := rfl

theorem writeSub_cons (ws : Sheet) (p : String × Nat) (ps : List (String × Nat)) :
    writeSub ws (p :: ps)
      = writeSub (setCell ws (p.2 + 2)
          (get_first_empty_cell (ws.getD (p.2 + 2 - 1) [])) p.1) ps := rfl

theorem setCellRow_nil_one (v : String) : setCellRow [] 1 v = [some v] := rfl

theorem setCellRow_pair (q a : String) :
    setCellRow [some q] 2 a = [some q, some a] := rfl

theorem formsFor_nil (j : Nat) : formsFor j [] = [] := rfl

theorem formsFor_cons_self (j : Nat) (f : String) (rest : List (String × Nat)) :
    formsFor j ((f, j) :: rest) = f :: formsFor j rest := by
  simp [formsFor, List.filter_cons]

theorem formsFor_cons_ne (j m : Nat) (f : String) (rest : List (String × Nat))
    (h : m ≠ j) :
    formsFor j ((f, m) :: rest) = formsFor j rest := by
  simp [formsFor, List.filter_cons, h]

theorem writeMain_spec (rows : Dataloader.Table) :
    ∀ (k : Nat) (ws : Sheet), ws.length = k + 1 →
      writeMain ws ((rows.enumFrom k).map (fun p => (p.1, p.2.ques, p.2.ans)))
        = ws ++ rows.map (fun r => [some r.ques, some r.ans]) := by
  induction rows with
  | nil => intro k ws _; simp [writeMain_nil]
  | cons r t ih =>
    intro k ws h
    have e1 : setCell ws (k + 2) 1 r.ques = ws ++ [[some r.ques]] := by
      have hk : k + 2 = ws.length + 1 := by omega
      rw [hk, setCell_extend, setCellRow_nil_one]
    have hl1 : (ws ++ [[some r.ques]]).length = k + 2 := by
      simp [h]
    have e2 : setCell (ws ++ [[some r.ques]]) (k + 2) 2 r.ans
        = ws ++ [[some r.ques, some r.ans]] := by
      rw [setCell_le _ _ _ _ (le_of_eq hl1.symm)]
      have hidx : k + 2 - 1 = ws.length := by omega
      rw [hidx, getD_append_self, setCellRow_pair]
      exact set_append_self ws _ _
    show writeMain (setCell (setCell ws (k + 2) 1 r.ques) (k + 2) 2 r.ans)
        ((t.enumFrom (k + 1)).map (fun p => (p.1, p.2.ques, p.2.ans)))
      = ws ++ ([some r.ques, some r.ans] :: t.map (fun x => [some x.ques, some x.ans]))
    rw [e1, e2, ih (k + 1) (ws ++ [[some r.ques, some r.ans]]) (by simp [h])]
    simp

theorem writeSub_spec :
    ∀ (sq : List (String × Nat)) (head : List Cell) (L : List (List Cell)),
      (∀ row ∈ L, ∀ c ∈ row, c.isSome = true) →
      (∀ p ∈ sq, p.2 < L.length) →
      writeSub (head :: L) sq
        = head :: (List.range L.length).map (fun j =>
            L.getD j [] ++ (formsFor j sq).map some) := by
  intro sq
  induction sq with
  | nil =>
    intro head L hL hm
    rw [writeSub_nil]
    have hcg : ∀ j ∈ List.range L.length,
        L.getD j [] ++ (formsFor j []).map some = L.getD j [] := by
      intro j _; simp [formsFor_nil]
    rw [List.map_congr_left hcg, range_map_getD]
  | cons p rest ih =>
    intro head L hL hm
    obtain ⟨f, m⟩ := p
    have hmL : m < L.length := by
      have := hm (f, m) (List.mem_cons_self _ _)
      simpa using this
    have hLm_getD : L.getD m [] = L.get ⟨m, hmL⟩ := by
      simp [List.getD_eq_getElem?_getD, List.getElem?_eq_getElem hmL,
        List.get_eq_getElem]
    have hLm_mem : L.getD m [] ∈ L := by
      rw [hLm_getD, List.get_eq_getElem]
      exact List.getElem_mem hmL
    have hfull : get_first_empty_cell (L.getD m []) = (L.getD m []).length + 1 :=
      get_first_empty_cell_of_allSome _ (hL _ hLm_mem)
    rw [writeSub_cons]
    have hset : setCell (head :: L) ((f, m).2 + 2)
        (get_first_empty_cell ((head :: L).getD ((f, m).2 + 2 - 1) [])) (f, m).1
        = head :: L.set m (L.getD m [] ++ [some f]) := by
      have hidx : m + 2 - 1 = m + 1 := by omega
      have hgd : (head :: L).getD (m + 1) [] = L.getD m [] := by simp
      have hle : m + 2 ≤ (head :: L).length := by
        simp only [List.length_cons]; omega
      show setCell (head :: L) (m + 2)
          (get_first_empty_cell ((head :: L).getD (m + 2 - 1) [])) f
        = head :: L.set m (L.getD m [] ++ [some f])
      rw [hidx, hgd, hfull, setCell_le _ _ _ _ hle]
      have hidx2 : m + 2 - 1 = m + 1 := by omega
      rw [hidx2]
      have hgd2 : (head :: L).getD (m + 1) [] = L.getD m [] := by simp
      rw [hgd2, setCellRow_extend]
      simp
    rw [hset]
    have hL2 : ∀ row ∈ L.set m (L.getD m [] ++ [some f]),
        ∀ c ∈ row, c.isSome = true := by
      intro row hrow c hc
      rcases List.mem_or_eq_of_mem_set hrow with h1 | h1
      · exact hL row h1 c hc
      · subst h1
        rcases List.mem_append.mp hc with h2 | h2
        · exact hL _ hLm_mem c h2
        · simp only [List.mem_singleton] at h2
          subst h2; rfl
    have hm2 : ∀ q ∈ rest, q.2 < (L.set m (L.getD m [] ++ [some f])).length := by
      intro q hq
      have := hm q (List.mem_cons_of_mem _ hq)
      simpa using this
    rw [ih head _ hL2 hm2]
    congr 1
    rw [List.length_set]
    apply List.map_congr_left
    intro j hj
    have hjL : j < L.length := List.mem_range.mp hj
    by_cases hjm : j = m
    · subst hjm
      have hgds : ∀ (row : List Cell),
          (L.set j (row ++ [some f])).getD j [] = row ++ [some f] := by
        intro row
        have hlt : j < (L.set j (row ++ [some f])).length := by simpa using hjL
        rw [List.getD_eq_getElem?_getD, List.getElem?_eq_getElem hlt]
        simp
      rw [hgds, formsFor_cons_self]
      simp
    · have hgds : ∀ (row : List Cell),
          (L.set m (row ++ [some f])).getD j [] = L.getD j [] := by
        intro row
        have hlt : j < (L.set m (row ++ [some f])).length := by simpa using hjL
        rw [List.getD_eq_getElem?_getD, List.getElem?_eq_getElem hlt,
          List.getElem_set_ne (fun hc => hjm hc.symm)]
        simp [List.getD_eq_getElem?_getD, List.getElem?_eq_getElem hjL]
      rw [hgds, formsFor_cons_ne _ _ _ _ (fun hc => hjm hc.symm)]

theorem initSheet_eq :
    initSheet = [[some "主问题", some "标准答案", some "问法"]] := rfl

theorem sub_ques_table_snd_lt (df : Dataloader.Table) :
    ∀ p ∈ Dataloader.sub_ques_table df, p.2 < df.length := by
  intro p hp
  simp only [Dataloader.sub_ques_table] at hp
  obtain ⟨l, hl, hpl⟩ := List.mem_flatten.mp hp
  obtain ⟨pr, hpr, rfl⟩ := List.mem_map.mp hl
  have hpr1 : pr.1 < df.length := by
    have h1 := List.mem_enum_iff_getElem?.mp hpr
    obtain ⟨hh, _⟩ := List.getElem?_eq_some.mp h1
    exact hh
  have hsnd : p.2 = pr.1 := by
    rcases List.mem_append.mp hpl with h1 | h1
    · obtain ⟨c, _, hcp⟩ := List.mem_filterMap.mp h1
      cases c with
      | none => simp at hcp
      | some s =>
        injection hcp with h2
        rw [← h2]
    · simp only [List.mem_singleton] at h1
      subst h1; rfl
  rw [hsnd]; exact hpr1

theorem knowledgeSheet_exportStore (df : Dataloader.Table) :
    knowledgeSheet (Dataloader.exportStore df)
      = [some "主问题", some "标准答案", some "问法"]
          :: (List.range df.length).map (fun j =>
               (df.map (fun r => [some r.ques, some r.ans])).getD j []
                 ++ (formsFor j (Dataloader.sub_ques_table df)).map some) := by
  rw [knowledgeSheet]
  have hmain : writeMain initSheet (Dataloader.exportStore df).main_ques
      = [some "主问题", some "标准答案", some "问法"]
          :: df.map (fun r => [some r.ques, some r.ans]) := by
    have hmq : (Dataloader.exportStore df).main_ques
        = (df.enumFrom 0).map (fun p => (p.1, p.2.ques, p.2.ans)) := rfl
    rw [hmq, writeMain_spec df 0 initSheet (by rw [initSheet_eq]; rfl), initSheet_eq]
    rfl
  rw [hmain]
  have hrows : ∀ row ∈ df.map (fun r => [some r.ques, some r.ans]),
      ∀ c ∈ row, c.isSome = true := by
    intro row hrow c hc
    obtain ⟨r, _, rfl⟩ := List.mem_map.mp hrow
    simp only [List.mem_cons, List.mem_singleton, List.not_mem_nil, or_false] at hc
    rcases hc with h | h <;> subst h <;> rfl
  have hmids : ∀ p ∈ (Dataloader.exportStore df).sub_ques,
      p.2 < (df.map (fun r => [some r.ques, some r.ans])).length := by
    intro p hp
    have := sub_ques_table_snd_lt df p hp
    simpa using this
  rw [writeSub_spec (Dataloader.exportStore df).sub_ques _ _ hrows hmids]
  simp only [List.length_map]
  rfl

theorem knowledgeSheet_length (df : Dataloader.Table) :
    (knowledgeSheet (Dataloader.exportStore df)).length = df.length + 1 := by
  rw [knowledgeSheet_exportStore df]
  simp

theorem knowledgeSheet_head (df : Dataloader.Table) :
    (knowledgeSheet (Dataloader.exportStore df)).getD 0 []
      = [some "主问题", some "标准答案", some "问法"] := by
  rw [knowledgeSheet_exportStore df]
  rfl

theorem knowledgeSheet_row (df : Dataloader.Table) (j : Nat) (h : j < df.length) :
    (knowledgeSheet (Dataloader.exportStore df)).getD (j + 1) []
      = some (df.get ⟨j, h⟩).ques :: some (df.get ⟨j, h⟩).ans
          :: (formsFor j (Dataloader.sub_ques_table df)).map some := by
  rw [knowledgeSheet_exportStore df, List.getD_cons_succ]
  have h1 : j < ((List.range df.length).map (fun j =>
      (df.map (fun r => [some r.ques, some r.ans])).getD j []
        ++ (formsFor j (Dataloader.sub_ques_table df)).map some)).length := by
    simp [h]
  rw [List.getD_eq_getElem?_getD, List.getElem?_eq_getElem h1]
  simp only [List.getElem_map, List.getElem_range, Option.getD_some]
  have h2 : j < (df.map (fun r => [some r.ques, some r.ans])).length := by
    simp [h]
  rw [List.getD_eq_getElem?_getD, List.getElem?_eq_getElem h2]
  simp [List.get_eq_getElem]

end MergeExporter

open MergeExporter in
/-- C8 (refuting evaluation): on a store holding one canonical question with
two paraphrases — three (canonical, form) pairs in `sub_ques` — the knowledge
sheet of the merge exporter has a single data row, not one row per pair, and
that row carries five filled cells, not three: the forms are grouped onto the
canonical question's own row in successive columns. -/
theorem C8_knowledge_sheet_counterexample :
    ¬ ((knowledgeSheet kbEx).length - 1 = kbEx.sub_ques.length)
    ∧ ((knowledgeSheet kbEx).getD 1 []).length = 5 := by
  constructor
  · decide
  · decide

open MergeExporter Dataloader in
/-- C8 (amended): the knowledge sheet carries a three-column header row
[canonicalQuestion, answer, form], and below it exactly one data row per
canonical question — row `j + 2` holds canonical question `j`'s text and
answer in columns 1 and 2 and that question's forms, in `sub_ques` order, one
per column from column 3 on: grouped by canonical question, not one row per
(canonical, form) pair. -/
theorem C8_knowledge_sheet_grouped (df : Table) :
    (knowledgeSheet (exportStore df)).length = df.length + 1
    ∧ (knowledgeSheet (exportStore df)).getD 0 []
        = [some "主问题", some "标准答案", some "问法"]
    ∧ ∀ j (h : j < df.length),
        (knowledgeSheet (exportStore df)).getD (j + 1) []
          = some (df.get ⟨j, h⟩).ques :: some (df.get ⟨j, h⟩).ans
              :: (formsFor j (sub_ques_table df)).map some :=
  ⟨knowledgeSheet_length df, knowledgeSheet_head df,
   fun j h => knowledgeSheet_row df j h⟩

/-- Witness for the amended C8 at the example table and row 0. -/
theorem C8_knowledge_sheet_grouped_witness :
    0 < dfEx.length
    ∧ (MergeExporter.knowledgeSheet (Dataloader.exportStore dfEx)).getD 1 []
        = some (dfEx.get ⟨0, by decide⟩).ques :: some (dfEx.get ⟨0, by decide⟩).ans
            :: (MergeExporter.formsFor 0 (Dataloader.sub_ques_table dfEx)).map some :=
  ⟨by decide, (C8_knowledge_sheet_grouped dfEx).2.2 0 (by decide)⟩

open MergeExporter Dataloader in
/-- C7: the export writes each `main_ques` row with id equal to the 0-based
source row index (the id column read in order is `0, 1, 2, ...`), and
re-deriving a table from the exported store through the merge exporter's
knowledge sheet and reloading it yields rows whose `main_ques` projection —
ids, canonical texts and answers — is identical to the original's, so ids are
stable across export, reimport and re-export. -/
theorem C7_round_trip_ids (df : Table) :
    (main_ques_table df).map (fun p => p.1) = List.range df.length
    ∧ main_ques_table (reimportTable (knowledgeSheet (exportStore df)))
        = main_ques_table df := by
  constructor
  · rw [main_ques_table, List.map_map]
    have hc : df.enum.map ((fun p => p.1) ∘ (fun p => (p.1, p.2.ques, p.2.ans)))
        = df.enum.map Prod.fst :=
      List.map_congr_left (fun a _ => rfl)
    rw [hc, List.enum_map_fst]
  · have hlen : (reimportTable (knowledgeSheet (exportStore df))).length
        = df.length := by
      rw [reimportTable, knowledgeSheet_length df]
      simp
    apply List.ext_getElem
    · simp [main_ques_table, hlen]
    · intro i h1 h2
      have hi : i < df.length := by
        simpa [main_ques_table] using h2
      have hiRT : i < (reimportTable (knowledgeSheet (exportStore df))).length := by
        rw [hlen]; exact hi
      have hRT : (reimportTable (knowledgeSheet (exportStore df)))[i]
          = ({ ques := (df.get ⟨i, hi⟩).ques
             , ans := (df.get ⟨i, hi⟩).ans
             , forms := (formsFor i (sub_ques_table df)).map some } : KBRow) := by
        simp only [reimportTable, List.getElem_map, List.getElem_range]
        rw [knowledgeSheet_row df i hi]
        simp
      simp only [main_ques_table, List.getElem_map, List.getElem_enum, hRT]
      simp [List.get_eq_getElem]
